import Mathlib

/-!
Shallow embedding of the cfbs module-add engine (`src/cfbs/core.py`) and proofs
about it.  The Python code mutates a `CFBSConfig` in place and terminates the
process on errors (`user_error` calls `sys.exit`, failed `assert`s raise); we
model this as explicit state passing with results in `Except Err`.  Printed
output (`print`) is returned as a list of lines on success; on an error the
process would exit, so the error constructor carries only the message.
Recursion (`add_with_dependencies`, `_add_modules` ↔ `add_command`) is made
total with an explicit fuel parameter: `Err.outOfFuel` means the recursion
budget ran out, so non-termination of the source shows up as
`∀ fuel, run fuel = .error .outOfFuel`.

External collaborators (the filesystem, the network fetch, stdin) are passed in
explicitly as data in `Ctx`, mirroring §6 of the spec which treats them as
interfaces consumed by the core.
-/

/-- `str.startswith` over the underlying character list (kernel friendly). -/
def strStartsWith (s p : String) : Bool := p.data.isPrefixOf s.data

/-- `str.endswith` over the underlying character list. -/
def strEndsWith (s p : String) : Bool := p.data.reverse.isPrefixOf s.data.reverse

/-- Python `pat in content`: substring containment test. -/
def strContains (s pat : String) : Bool :=
  (List.range (s.data.length + 1)).any (fun i => pat.data.isPrefixOf (s.data.drop i))

/-- `str.lower`, mapped over the character list. -/
def strToLower (s : String) : String := String.mk (s.data.map Char.toLower)

/-- `os.path.basename`: everything after the last slash. -/
def basename (p : String) : String :=
  String.mk (p.data.foldl (fun acc c => if c = '/' then [] else acc ++ [c]) [])

/-- `", ".join(l)` -/
def joinComma : List String → String
  | [] => ""
  | [x] => x
  | x :: rest => x ++ ", " ++ joinComma rest

/-- First-match association-list lookup (Python dict access for dicts built
with unique keys, e.g. the module index or a `provides` mapping). -/
def lookupA {α : Type} : List (String × α) → String → Option α
  | [], _ => none
  | (k, v) :: rest, key => if k = key then some v else lookupA rest key

/-- Last-match lookup: a Python dict built from `zip(keys, values)` keeps the
last value for a duplicated key, so lookups in such a dict see the last pair. -/
def lookupLast {α : Type} (l : List (String × α)) (key : String) : Option α :=
  lookupA l.reverse key

/-- A module / index-entry object.  Python uses (ordered) dicts with optional
keys; a key that may be absent becomes an `Option` field (`none` = key absent).
We do not model key order; no claim depends on it. -/
structure Obj where
  name : Option String := none
  description : Option String := none
  url : Option String := none
  commit : Option String := none
  subdirectory : Option String := none
  dependencies : Option (List String) := none
  steps : Option (List String) := none
  tags : Option (List String) := none
  added_by : Option String := none
  «alias» : Option String := none
deriving DecidableEq, Repr

/-- A filesystem node: a file with its text content, or a directory with the
`.cf` files `find(name, extension=".cf")` would discover inside it (path and
content).  This is the part of the filesystem `core.py` inspects. -/
inductive FSNode
  | file (content : String)
  | dir (cfFiles : List (String × String))
deriving DecidableEq, Repr

/-- The filesystem visible to the program: existing paths and their nodes. -/
structure FS where
  nodes : List (String × FSNode)
deriving DecidableEq, Repr

/-- `os.path.exists` -/
def fsExists (fs : FS) (p : String) : Bool := (lookupA fs.nodes p).isSome

/-- The mutable state of a `CFBSConfig`: its `build` list (`self["build"]`).
The rest of the manifest document is never mutated by the add engine. -/
structure St where
  build : List Obj
deriving DecidableEq, Repr

/-- A fetched remote manifest, as the core sees it after
`fetch_archive`/`clone_url_repo` + `CFBSJson(path, url=url, url_commit=...)`:
its `provides` mapping (if the key is present), its `url`/`url_commit`, and
the catalog of its own `Index`. -/
structure RemoteSrc where
  provides : Option (List (String × Obj)) := none
  url : Option String := none
  commit : Option String := none
  catalog : List (String × Obj) := []

/-- Read-only context: filesystem, the local config's expanded `Index` catalog
(`self.data["index"]`, already a dict — the lazily fetched case behaves the
same once loading succeeded), the local manifest's optional `provides`
section, the network (mapping a URL to the remote manifest a fetch would
produce, `none` = fetch fails), and the interactive stdin answer. -/
structure Ctx where
  fs : FS := ⟨[]⟩
  catalog : List (String × Obj) := []
  localProvides : Option (List (String × Obj)) := none
  remote : String → Option RemoteSrc := fun _ => none
  stdin : String := ""

/-- The `added_by` argument of `_add_modules`: "string, list of strings, or
dictionary" (comment at `core.py:367`). -/
inductive AddedBy
  | str (s : String)
  | list (l : List String)
  | dict (d : List (String × String))
deriving DecidableEq, Repr

/-- The `module` argument of `add_with_dependencies`: a name to resolve or an
already-constructed module object. -/
inductive ModOrName
  | nm (s : String)
  | md (m : Obj)
deriving DecidableEq, Repr

/-- How a run ends abnormally: `user_error` (prints and `sys.exit`s), a failed
`assert` or an uncaught exception (`KeyError` etc.), or fuel exhaustion (our
marker for unbounded recursion in the source). -/
inductive Err
  | userError (msg : String)
  | assertError (msg : String)
  | outOfFuel
deriving DecidableEq, Repr

/-- `_local_module_data_cf_file` (core.py:42-50). -/
def local_module_data_cf_file (module : String) : Obj :=
  { description := some "Local policy file added using cfbs command line",
    tags := some ["local"],
    dependencies := some ["autorun"],
    steps := some [("copy " ++ module ++ " services/autorun/" ++ basename module)],
    added_by := some "cfbs add" }

/-- `_local_module_data_json_file` (core.py:53-59). -/
def local_module_data_json_file (module : String) : Obj :=
  { description := some "Local augments file added using cfbs command line",
    tags := some ["local"],
    steps := some [("json " ++ module ++ " def.json")],
    added_by := some "cfbs add" }

/-- `_local_module_data_subdir` (core.py:62-70); `os.path.join("services",
"cfbs", module[2:])`.  The caller has asserted `module` starts with `./`. -/
def local_module_data_subdir (module : String) : Obj :=
  { description := some "Local subdirectory added using cfbs command line",
    tags := some ["local"],
    steps := some [("directory " ++ module ++ " " ++ ("services/cfbs/" ++ String.mk (module.data.drop 2)))],
    added_by := some "cfbs add" }

/-- `_generate_local_module_object` (core.py:73-83).  The generated dicts have
no `name` key.  A path that exists as a file yet ends in `/` falls off the end
of the Python function (returns `None`, crashing the caller); that cannot
happen on a real filesystem, and we map it to an assertion-style error. -/
def generate_local_module_object (fs : FS) (module : String) : Except Err Obj :=
  if ¬ strStartsWith module "./" then .error (.assertError "module.startswith ./") else
  if ¬ (strEndsWith module ".cf" || strEndsWith module ".json" || strEndsWith module "/") then
    .error (.assertError "module ends with .cf/.json//") else
  match lookupA fs.nodes module with
  | none => .error (.assertError "os.path.isfile(module) or os.path.isdir(module)")
  | some (.dir _) => .ok (local_module_data_subdir module)
  | some (.file _) =>
    if strEndsWith module ".cf" then .ok (local_module_data_cf_file module)
    else if strEndsWith module ".json" then .ok (local_module_data_json_file module)
    else .error (.assertError "unreachable: existing file path ending in /")

/-- `Index.exists` (core.py:132-133): `os.path.exists(module) or (module in self)`. -/
def index_exists (fs : FS) (catalog : List (String × Obj)) (module : String) : Bool :=
  fsExists fs module || (lookupA catalog module).isSome

/-- `Index.get_module_object` (core.py:135-141).  For a catalog entry the
result is `OrderedDict({"name": name})` updated with the entry, so an explicit
`name` key inside the entry would win over the requested name; a missing
catalog key would raise `KeyError`. -/
def get_module_object (fs : FS) (catalog : List (String × Obj)) (name : String) : Except Err Obj :=
  if strStartsWith name "./" then generate_local_module_object fs name
  else match lookupA catalog name with
    | some entry => .ok { entry with name := some (entry.name.getD name) }
    | none => .error (.assertError "KeyError: name not in index")

/-- Crude rendering standing in for `pretty(data)` in error messages
(`cfbs.pretty` is presentation-layer, out of the spec's scope §1; no claim
inspects these message payloads). -/
def prettyObj (_ : Obj) : String := "<module definition>"

/-- `_construct_provided_module` (core.py:144-166).  Checks `description`
first, then copies `url`/`commit`, keeps `subdirectory`/`dependencies` only if
truthy (Python: empty string/list are dropped), checks `steps`, and always
stamps `added_by = "cfbs add"`. -/
def construct_provided_module (name : String) (data : Obj) (url commit : Option String) :
    Except Err Obj :=
  match data.description with
  | none => .error (.userError ("missing required key \x27description\x27 in module definition: " ++ prettyObj data))
  | some desc =>
    let subdir := match data.subdirectory with
      | some s => if s = "" then none else some s
      | none => none
    let deps := match data.dependencies with
      | some l => if l = [] then none else some l
      | none => none
    match data.steps with
    | none => .error (.userError ("missing required key \x27steps\x27 in module definition: " ++ prettyObj data))
    | some steps =>
      .ok { name := some name, description := some desc, url := url, commit := commit,
            subdirectory := subdir, dependencies := deps, steps := some steps,
            added_by := some "cfbs add" }

/-- `CFBSJson.get_module_for_build` (core.py:230-236): the manifest's own
`provides` first, then its index, else `None`. -/
def get_module_for_build (provides : Option (List (String × Obj))) (url commit : Option String)
    (catalog : List (String × Obj)) (fs : FS) (name : String) : Except Err (Option Obj) :=
  match provides with
  | some provs =>
    (match lookupA provs name with
     | some data =>
       match construct_provided_module name data url commit with
       | .ok m => .ok (some m)
       | .error e => .error e
     | none =>
       if (lookupA catalog name).isSome then
         match get_module_object fs catalog name with
         | .ok m => .ok (some m)
         | .error e => .error e
       else .ok none)
  | none =>
    if (lookupA catalog name).isSome then
      match get_module_object fs catalog name with
      | .ok m => .ok (some m)
      | .error e => .error e
    else .ok none

/-- `_has_autorun_tag` seen as a pure check on file content (core.py:169-178). -/
def autorunTagIn (content : String) : Bool :=
  strContains content "meta:" && strContains content "tags" &&
  strContains content "slist" && strContains content "autorun"

/-- `CFBSConfig.validate_added_module` (core.py:247-266).  Warnings are
returned as output lines; the `assert os.path.isfile/isdir` failures become
errors.  For a directory, `find(name, extension=".cf")` is modelled by the
`.cf` files stored in the directory node. -/
def validate_added_module (ctx : Ctx) (module : Obj) : Except Err (List String) :=
  let name := module.name.getD ""
  if strStartsWith name "./" && strEndsWith name ".cf" then
    match lookupA ctx.fs.nodes name with
    | some (.file content) =>
      if autorunTagIn content then .ok []
      else .ok ["WARNING: No autorun tag found in policy file: \x27" ++ name ++ "\x27",
                "WARNING: Tag the bundle(s) you want evaluated:",
                "WARNING:   meta: \x22tags\x22 slist => \x7b \x22autorun\x22 \x7d;"]
    | _ => .error (.assertError "os.path.isfile(name)")
  else if strStartsWith name "./" && strEndsWith name "/" then
    match lookupA ctx.fs.nodes name with
    | some (.dir cfFiles) =>
      if cfFiles ≠ [] && cfFiles.all (fun f => ¬ autorunTagIn f.2) then
        .ok ["WARNING: No bundles tagged with autorun found in: \x27" ++ name ++ "\x27",
             "WARNING: Tag the bundle(s) you want evaluated in .cf policy files:",
             "WARNING:   meta: \x22tags\x22 slist => \x7b \x22autorun\x22 \x7d;"]
      else .ok []
    | _ => .error (.assertError "os.path.isdir(name)")
  else .ok []

/-- `CFBSJson._module_is_in_build` (core.py:238-239): membership by `name`. -/
def module_is_in_build (st : St) (module : Obj) : Bool :=
  st.build.any (fun m => m.name == module.name)

/-- The resolution step at the top of `CFBSConfig.add_with_dependencies`
(core.py:277-281): a string is resolved through
`(remote_config or self).get_module_for_build`, and an unresolved name is a
fatal `user_error`; an already-constructed module is passed through (such a
dict is non-empty, so `if not module` is false). -/
def awd_resolve (ctx : Ctx) (rc : Option RemoteSrc) (mon : ModOrName) : Except Err Obj :=
  match mon with
  | .nm s =>
    (match (match rc with
            | some r => get_module_for_build r.provides r.url r.commit r.catalog ctx.fs s
            | none => get_module_for_build ctx.localProvides none none ctx.catalog ctx.fs s) with
     | .ok (some m) => .ok m
     | .ok none => .error (.userError ("Module \x27" ++ s ++ "\x27 not found"))
     | .error e => .error e)
  | .md m => .ok m

/-- Tail of `add_with_dependencies` (core.py:290-295), as a function of the
dependency loop's outcome `r`: append the module after its dependencies, then
print the message (`dependent` is used *only* here — `if dependent:` is falsy
for `""`), then run `validate_added_module`. -/
def awd_finish (ctx : Ctx) (module : Obj) (dependent : Option String)
    (r : Except Err (St × List String)) : Except Err (St × List String) :=
  match r with
  | .error e => .error e
  | .ok (st1, out1) =>
    let st2 : St := ⟨st1.build ++ [module]⟩
    let msg := match dependent with
      | some dep =>
        if dep = "" then "Added module: " ++ module.name.getD ""
        else "Added module: " ++ module.name.getD "" ++ " (Dependency of " ++ dep ++ ")"
      | none => "Added module: " ++ module.name.getD ""
    match validate_added_module ctx module with
    | .error e => .error e
    | .ok warns => .ok (st2, out1 ++ [msg] ++ warns)

mutual
/-- `CFBSConfig.add_with_dependencies` (core.py:276-295), built from the
resolution step (`awd_resolve`), the `assert "name" in module` /
`assert "steps" in module` checks, the skip-if-present check (dependencies of
a skipped module are not revisited), the dependency loop (`awdList`, run
*before* the module itself is appended) and the append/print/validate tail
(`awd_finish`).  `fuel` bounds the recursion depth; every recursive call
strictly decreases it. -/
def add_with_dependencies (fuel : Nat) (ctx : Ctx) (rc : Option RemoteSrc) (st : St)
    (mon : ModOrName) (dependent : Option String) : Except Err (St × List String) :=
  match fuel with
  | 0 => .error .outOfFuel
  | fuel + 1 =>
    match awd_resolve ctx rc mon with
    | .error e => .error e
    | .ok module =>
      if module.name.isNone then .error (.assertError "name in module") else
      if module.steps.isNone then .error (.assertError "steps in module") else
      if module_is_in_build st module then
        .ok (st, ["Skipping already added module \x27" ++ module.name.getD "" ++ "\x27"])
      else
        awd_finish ctx module dependent
          (match module.dependencies with
           | some deps => awdList fuel ctx rc st deps (module.name.getD "")
           | none => .ok (st, []))

def awdList (fuel : Nat) (ctx : Ctx) (rc : Option RemoteSrc) (st : St)
    (deps : List String) (parent : String) : Except Err (St × List String) :=
  match fuel, deps with
  | _, [] => .ok (st, [])
  | 0, _ :: _ => .error .outOfFuel
  | fuel + 1, d :: ds =>
    match add_with_dependencies fuel ctx rc st (.nm d) (some parent) with
    | .error e => .error e
    | .ok (st1, o1) =>
      match awdList fuel ctx rc st1 ds parent with
      | .error e => .error e
      | .ok (st2, o2) => .ok (st2, o1 ++ o2)
end

/-- The `for module in modules: self.add_with_dependencies(module, remote_config)`
loop at the end of `_add_using_url` (core.py:336-337). -/
def awdForEach (fuel : Nat) (ctx : Ctx) (rc : Option RemoteSrc) (st : St) :
    List Obj → Except Err (St × List String)
  | [] => .ok (st, [])
  | m :: ms =>
    match add_with_dependencies fuel ctx rc st (.md m) none with
    | .error e => .error e
    | .ok (st1, o1) =>
      match awdForEach fuel ctx rc st1 ms with
      | .error e => .error e
      | .ok (st2, o2) => .ok (st2, o1 ++ o2)

/-- The loop body of `CFBSJson.get_provides` (core.py:218-228). -/
def constructProvidesList (url commit : Option String) :
    List (String × Obj) → Except Err (List (String × Obj))
  | [] => .ok []
  | (k, v) :: rest =>
    match construct_provided_module k v url commit with
    | .error e => .error e
    | .ok m =>
      match constructProvidesList url commit rest with
      | .error e => .error e
      | .ok ms => .ok ((k, m) :: ms)

/-- `CFBSJson.get_provides` (core.py:218-228): fatal if the manifest has no
`provides` key, else construct every provided module. -/
def get_provides (r : RemoteSrc) : Except Err (List (String × Obj)) :=
  match r.provides with
  | none => .error (.userError ("missing required key \x27provides\x27 in module definition: " ++ "<manifest>"))
  | some provs => constructProvidesList r.url r.commit provs

/-- `modules = [provides[k] for k in to_add]` (core.py:334); the `KeyError`
branch is unreachable because missing keys were rejected just before. -/
def selectModules (provides : List (String × Obj)) : List String → Except Err (List Obj)
  | [] => .ok []
  | k :: ks =>
    match lookupA provides k with
    | some m =>
      match selectModules provides ks with
      | .error e => .error e
      | .ok ms => .ok (m :: ms)
    | none => .error (.assertError "KeyError: module not in provides")

/-- Archive suffixes from `cfbs.internal_file_management.SUPPORTED_ARCHIVES`.
Modelled from the spec: "Triggered when the first reference is a URL (archive
extension or https/git/ssh scheme)" — the module itself is not under src/.
The exact extension list only matters for URL dispatch, never for plain
module names. -/
def SUPPORTED_ARCHIVES : List String := [".zip", ".tar.gz", ".tgz"]

/-- Modelled from the spec: `local_module_name(path) -> canonical_name`
(`cfbs.internal_file_management`, not under src/) "normalizes a filesystem
path reference" into the canonical local-module form beginning with `./`. -/
def local_module_name (path : String) : String :=
  if strStartsWith path "./" then path else "./" ++ path

/-- `CFBSConfig._add_using_url` (core.py:297-339).  The fetch collaborators
(`fetch_archive`/`clone_url_repo` + reading the fetched `cfbs.json`) are
modelled by `ctx.remote`; a failed fetch exits.  `input()` reads `ctx.stdin`
after printing its prompt.  Faithful details: the module listing is printed
before the empty check; declining the prompt returns 0 with no further
action; with explicit names, missing ones are reported together. -/
def add_using_url (fuel : Nat) (ctx : Ctx) (st : St) (url : String) (to_add : List String)
    (non_interactive : Bool) : Except Err (St × List String × Nat) :=
  match ctx.remote url with
  | none => .error (.userError ("Could not fetch \x27" ++ url ++ "\x27"))
  | some remote =>
    match get_provides remote with
    | .error e => .error e
    | .ok provides =>
      if to_add.length = 0 then
        let modules := provides.map (fun p => p.2)
        let header := "Found " ++ toString modules.length ++ " modules in \x27" ++ url ++ "\x27:"
        let listing := modules.map (fun m => "  - " ++ m.name.getD "")
        if modules.isEmpty then .error (.userError "no modules available, nothing to do")
        else if ¬ non_interactive then
          let prompt := "Do you want to add all " ++ toString modules.length ++ " of them? [y/N] "
          if strToLower ctx.stdin ≠ "y" ∧ strToLower ctx.stdin ≠ "yes" then
            .ok (st, header :: listing ++ [prompt], 0)
          else
            match awdForEach fuel ctx (some remote) st modules with
            | .error e => .error e
            | .ok (st1, out1) => .ok (st1, header :: listing ++ [prompt] ++ out1, 0)
        else
          match awdForEach fuel ctx (some remote) st modules with
          | .error e => .error e
          | .ok (st1, out1) => .ok (st1, header :: listing ++ out1, 0)
      else
        let missing := to_add.filter (fun k => (lookupA provides k).isNone)
        if missing ≠ [] then .error (.userError ("Missing modules: " ++ joinComma missing))
        else
          match selectModules provides to_add with
          | .error e => .error e
          | .ok modules =>
            match awdForEach fuel ctx (some remote) st modules with
            | .error e => .error e
            | .ok (st1, out1) => .ok (st1, out1, 0)

/-- One step of the translate loop of `_add_modules` (core.py:351-363): fatal
if the reference exists nowhere; an existing filesystem path that is not a
catalog key becomes its canonical local name; a catalog entry with an `alias`
key is substituted one level with a printed notice.  The `KeyError` branch is
unreachable (`index.exists` has just passed and the local branch was not
taken, so the key is in the catalog). -/
def translateOne (ctx : Ctx) (m : String) : Except Err (String × List String) :=
  if ¬ index_exists ctx.fs ctx.catalog m then
    .error (.userError ("Module \x27" ++ m ++ "\x27 does not exist"))
  else if (lookupA ctx.catalog m).isNone ∧ fsExists ctx.fs m then
    .ok (local_module_name m, [])
  else
    match lookupA ctx.catalog m with
    | none => .error (.assertError "KeyError: module not in index")
    | some data =>
      match data.alias with
      | some target => .ok (target, [m ++ " is an alias for " ++ target])
      | none => .ok (m, [])

/-- The whole translate loop: first failure aborts (process exit). -/
def translateAll (ctx : Ctx) : List String → Except Err (List String × List String)
  | [] => .ok ([], [])
  | m :: ms =>
    match translateOne ctx m with
    | .error e => .error e
    | .ok (t, o) =>
      match translateAll ctx ms with
      | .error e => .error e
      | .ok (ts, os) => .ok (t :: ts, o ++ os)

/-- The `added_by` normalization of `_add_modules` (core.py:367-376):
string → list (replicated) → dict (`zip`, later duplicates win, hence
`lookupLast`); a list of the wrong length fails the `assert`. -/
def mkAbMap : AddedBy → List String → Except Err (List (String × String))
  | .str s, ta => .ok (List.zip ta (List.replicate ta.length s))
  | .list l, ta =>
    if l.length = ta.length then .ok (List.zip ta l)
    else .error (.assertError "len(added_by) == len(to_add)")
  | .dict d, _ => .ok d

/-- One entry of the promotion loop (core.py:386-391): an entry whose name is
being re-added with the user-requested marker gets its `added_by` set to
`"cfbs add"`.  (`added_by[module["name"]]` cannot raise here: the name is in
`to_add` and the dict covers `to_add` by the assert just above.) -/
def promoteEntry (abMap : List (String × String)) (ta : List String) (m : Obj) : Obj :=
  match m.name with
  | some nm =>
    if nm ∈ ta then
      (if lookupLast abMap nm = some "cfbs add" then { m with added_by := some "cfbs add" } else m)
    else m
  | none => m

/-- The de-duplication filter loop (core.py:393-402).  Accumulates the
surviving references, the skip messages (printed only for user-requested
drops), and the *last* value assigned to the Python local `user_requested`
(which line 425 later reads, stale, in the materialize loop; `none` = the
loop never ran so the variable is unbound). -/
def filterPass (abMap : List (String × String)) (added : List String) :
    List String → List String → List String → Option Bool →
    (List String × List String × Option Bool)
  | [], filtered, outs, lastUR => (filtered, outs, lastUR)
  | m :: ms, filtered, outs, _lastUR =>
    let ur : Bool := lookupLast abMap m == some "cfbs add"
    if m ∈ added ++ filtered then
      filterPass abMap added ms filtered
        (outs ++ (if ur then ["Skipping already added module: " ++ m] else [])) (some ur)
    else
      filterPass abMap added ms (filtered ++ [m]) outs (some ur)

/-- The inner `for dep in data["dependencies"]` loop of the dependency
discovery (core.py:411-415): collect dependencies not already in
`added`/`filtered`/the ones collected so far, attributing each to the module
that introduced it. -/
def collectDeps (addedFiltered : List String) (m : String) :
    List String → List String → List String → (List String × List String)
  | [], deps, depsBy => (deps, depsBy)
  | d :: ds, deps, depsBy =>
    if d ∈ addedFiltered ∨ d ∈ deps then collectDeps addedFiltered m ds deps depsBy
    else collectDeps addedFiltered m ds (deps ++ [d]) (depsBy ++ [m])

/-- The outer dependency-discovery loop of `_add_modules` (core.py:404-415):
per surviving reference, `assert index.exists`, resolve its object, `assert`
it is not an alias, and collect its unmet dependencies.  A dependency is
blocked if it is in `added`, anywhere in the *whole* `filtered` list, or
among the dependencies collected so far. -/
def discoverDeps (ctx : Ctx) (added filtered : List String) :
    List String → List String → List String → Except Err (List String × List String)
  | [], deps, depsBy => .ok (deps, depsBy)
  | m :: ms, deps, depsBy =>
    if ¬ index_exists ctx.fs ctx.catalog m then .error (.assertError "index.exists(module)")
    else
      match get_module_object ctx.fs ctx.catalog m with
      | .error e => .error e
      | .ok data =>
        if data.alias.isSome then .error (.assertError "alias not in data")
        else
          match data.dependencies with
          | some ds =>
            let p := collectDeps (added ++ filtered) m ds deps depsBy
            discoverDeps ctx added filtered ms p.1 p.2
          | none => discoverDeps ctx added filtered ms deps depsBy

/-- The build entry the materialize loop constructs for a surviving reference
(core.py:423): `{"name": module, **data, "added_by": added_by[module]}` — the
`data` dict's own `name` key (if any) wins over the requested name, and the
explicit `added_by` wins over anything in `data`. -/
def materializeEntry (abMap : List (String × String)) (m : String) (data : Obj) : Obj :=
  { data with name := some (data.name.getD m), added_by := lookupLast abMap m }

/-- The materialize loop of `_add_modules` (core.py:420-434): per surviving
reference, `assert index.exists`, resolve its object, build
`{"name": module, **data, "added_by": added_by[module]}` and append it, print
a message, and run `validate_added_module`.  Faithful quirk: the printed
message's branch reads the Python local `user_requested`, which still holds
the value from the *last* iteration of the earlier filter loop (`lastUR`
here); reading it when the filter loop never ran would be a `NameError`
(unreachable, since the surviving references come from that loop).  The
message text itself uses `added_by[module]`. -/
def materialize (ctx : Ctx) (abMap : List (String × String)) (lastUR : Option Bool) :
    St → List String → Except Err (St × List String)
  | st, [] => .ok (st, [])
  | st, m :: ms =>
    if ¬ index_exists ctx.fs ctx.catalog m then .error (.assertError "index.exists(module)")
    else
      match get_module_object ctx.fs ctx.catalog m with
      | .error e => .error e
      | .ok data =>
        let new_module : Obj := materializeEntry abMap m data
        let st1 : St := ⟨st.build ++ [new_module]⟩
        match lastUR with
        | none => .error (.assertError "NameError: user_requested referenced before assignment")
        | some ur =>
          let msg :=
            if ur then "Added module: " ++ m
            else "Added module: " ++ m ++ " (Dependency of " ++ (lookupLast abMap m).getD "" ++ ")"
          match validate_added_module ctx new_module with
          | .error e => .error e
          | .ok warns =>
            match materialize ctx abMap lastUR st1 ms with
            | .error e => .error e
            | .ok (st2, outs) => .ok (st2, msg :: warns ++ outs)

/-- The tail of `_add_modules` after the dependency recursion (core.py:417
onward), as a function of the recursion's outcome `r`: on success, run the
materialize loop on the surviving references and assemble outputs; an error
(or exhausted fuel) in the recursion aborts the whole call. -/
def afterDeps (ctx : Ctx) (abMap : List (String × String)) (lastUR : Option Bool)
    (filtered out0 outF : List String)
    (r : Except Err (St × List String × Nat)) : Except Err (St × List String × Nat) :=
  match r with
  | .error e => .error e
  | .ok (st2, out2, _) =>
    match materialize ctx abMap lastUR st2 filtered with
    | .error e => .error e
    | .ok (st3, out3) => .ok (st3, out0 ++ outF ++ out2 ++ out3, 0)

mutual
/-- `CFBSConfig._add_modules` (core.py:341-436): translate aliases and local
paths, normalize `added_by`, batch-report translated non-local references
missing from the catalog, promote `added_by` of re-added entries, filter
already-added references, discover unmet dependencies and add them through a
recursive `add_command` call, then materialize the surviving references.
The unused `index_path`/`checksum`/`non_interactive` parameters of the
Python signature are dropped.  (Defined mutually with `add_command`.) -/
def add_modules (fuel : Nat) (ctx : Ctx) (st : St) (to_add : List String)
    (added_by : AddedBy) : Except Err (St × List String × Nat) :=
  match fuel with
  | 0 => .error .outOfFuel
  | fuel + 1 =>
    match translateAll ctx to_add with
    | .error e => .error e
    | .ok (ta, out0) =>
      match mkAbMap added_by ta with
      | .error e => .error e
      | .ok abMap =>
        if ta.any (fun k => (lookupLast abMap k).isNone) then
          .error (.assertError "not any(k not in added_by for k in to_add)")
        else
          let missing := ta.filter (fun m => (!strStartsWith m "./") && (lookupA ctx.catalog m).isNone)
          if missing ≠ [] then
            .error (.userError ("Module(s) could not be found: " ++ joinComma missing))
          else
            let build1 := st.build.map (promoteEntry abMap ta)
            let added0 := build1.map (fun m => m.name.getD "")
            let fp := filterPass abMap added0 ta [] [] none
            match discoverDeps ctx added0 fp.1 fp.1 [] [] with
            | .error e => .error e
            | .ok (deps, depsBy) =>
              afterDeps ctx abMap fp.2.2 fp.1 out0 fp.2.1
                (if deps ≠ [] then add_command fuel ctx ⟨build1⟩ deps (.list depsBy) none false
                 else .ok (⟨build1⟩, [], 0))

/-- `CFBSConfig.add_command` (core.py:438-460): the public entry point.  An
empty request is fatal before anything else; a first reference that looks
like an archive or a VCS URL goes to `_add_using_url` with the remaining
references; everything else goes to `_add_modules`. -/
def add_command (fuel : Nat) (ctx : Ctx) (st : St) (to_add : List String)
    (added_by : AddedBy) (checksum : Option String) (non_interactive : Bool) :
    Except Err (St × List String × Nat) :=
  match fuel with
  | 0 => .error .outOfFuel
  | fuel + 1 =>
    match to_add with
    | [] => .error (.userError "Must specify at least one module to add")
    | first :: rest =>
      if SUPPORTED_ARCHIVES.any (fun suf => strEndsWith first suf) ||
         strStartsWith first "https://" || strStartsWith first "git://" ||
         strStartsWith first "ssh://" then
        add_using_url fuel ctx st first rest non_interactive
      else
        add_modules fuel ctx st to_add added_by
end

/-- The spec's description of `Index.exists`, written from its words (§4.1):
"true if `name` is a local filesystem path ending in `.cf`, `.json`, or `/`
that exists, OR `name` is a key in the catalog".  Kept separate from
`index_exists` (which embeds the code) so the two can be compared. -/
def spec_index_exists (fs : FS) (catalog : List (String × Obj)) (name : String) : Bool :=
  ((strEndsWith name ".cf" || strEndsWith name ".json" || strEndsWith name "/") && fsExists fs name)
  || (lookupA catalog name).isSome

/-- The dependency list the add engine iterates for an entry (absent key and
present-but-empty list iterate identically). -/
def depList (m : Obj) : List String := m.dependencies.getD []

/-- Helper for `depsBefore`: every entry's dependencies must all occur among
`seen` (the names of strictly earlier entries, oldest first). -/
def depsBeforeFrom : List (Option String) → List Obj → Bool
  | _, [] => true
  | seen, m :: rest =>
    ((depList m).all fun d => decide (some d ∈ seen)) && depsBeforeFrom (seen ++ [m.name]) rest

/-- The dependency-ordering invariant of the spec (§8): for every entry of the
build list, each of its dependency names appears as the `name` of an earlier
entry. -/
def depsBefore (build : List Obj) : Bool := depsBeforeFrom [] build

/-- Uniqueness invariant of the spec (§3): no two build entries share a name. -/
def namesUnique (build : List Obj) : Bool := (build.map (fun m => m.name)).Nodup

/-- Position-wise preservation of the user-requested marker: the build list
may only grow, and an entry that already carries `added_by = "cfbs add"`
still carries it at the same position afterwards. -/
def preservesMark : List Obj → List Obj → Prop
  | [], _ => True
  | _ :: _, [] => False
  | a :: as, b :: bs =>
    (a.added_by = some "cfbs add" → b.added_by = some "cfbs add") ∧ preservesMark as bs

instance instDecPreservesMark : (a b : List Obj) → Decidable (preservesMark a b)
  | [], _ => .isTrue trivial
  | _ :: _, [] => .isFalse (fun h => h)
  | _ :: as, _ :: bs =>
    have : Decidable (preservesMark as bs) := instDecPreservesMark as bs
    inferInstanceAs (Decidable (_ ∧ _))

/-- Catalogs whose entries carry no explicit `name` key — the normal shape of
a cfbs index, where an entry's name is its key.  (An entry with its own
`name` key would override the requested name in `get_module_object`.) -/
def wfCatalog (catalog : List (String × Obj)) : Prop :=
  ∀ p ∈ catalog, (p : String × Obj).2.name = none

/-- The catalog a remote-config option exposes to `get_module_for_build`. -/
def rcCatalog : Option RemoteSrc → List (String × Obj)
  | none => []
  | some r => r.catalog

/-- Empty context: nothing on disk, empty catalog, no network. -/
def ctxEmpty : Ctx := {}

/-- Catalog scenario for the in-batch ordering violation: `P` depends on `C`,
both in the catalog, requested together as `["P", "C"]`. -/
def ctxPC : Ctx :=
  { catalog := [("P", { description := some "p", dependencies := some ["C"], steps := some ["sp"] }),
                ("C", { description := some "c", steps := some ["sc"] })] }

/-- Catalog scenario for the duplicate-entry bug: `A` depends on `C`, `C`
depends on `B`, `B` has no dependencies; the user requests `["A", "B"]`. -/
def ctxABC : Ctx :=
  { catalog := [("A", { description := some "a", dependencies := some ["C"], steps := some ["sa"] }),
                ("B", { description := some "b", steps := some ["sb"] }),
                ("C", { description := some "c", dependencies := some ["B"], steps := some ["sc"] })] }

/-- Two-module dependency cycle `A → B → A` in the catalog. -/
def ctxCyc : Ctx :=
  { catalog := [("A", { description := some "a", dependencies := some ["B"], steps := some ["sa"] }),
                ("B", { description := some "b", dependencies := some ["A"], steps := some ["sb"] })] }

/-- A single dependency-free catalog module, for the terminating side. -/
def ctxOne : Ctx :=
  { catalog := [("one", { description := some "o", steps := some ["so"] })] }

/-- Remote manifest providing `P` (which depends on `D`) and `D`. -/
def remotePD : RemoteSrc :=
  { provides := some [("P", { description := some "p", dependencies := some ["D"], steps := some ["sp"] }),
                      ("D", { description := some "d", steps := some ["sd"] })],
    url := some "https://ex.am/repo", commit := some "c0ffee" }

/-- Context whose network returns `remotePD` for one URL; `stdin` is the
interactive answer given to the confirmation prompt. -/
def ctxRemote (answer : String) : Ctx :=
  { remote := fun u => if u = "https://ex.am/repo" then some remotePD else none,
    stdin := answer }

/-- Catalog scenario for the stale `user_requested` message bug: two
dependency-free modules `a` and `b`, added with mixed attributions. -/
def ctxAB : Ctx :=
  { catalog := [("a", { description := some "a", steps := some ["sa"] }),
                ("b", { description := some "b", steps := some ["sb"] })] }

/-- Catalog with a single module `x`, used for the promotion witness. -/
def ctxX : Ctx :=
  { catalog := [("x", { description := some "x", steps := some ["sx"] })] }

/-- A build entry for `x` first pulled in as a dependency of `dep`. -/
def entryXdep : Obj :=
  { name := some "x", description := some "x", steps := some ["sx"], added_by := some "dep" }

/-- Build entry produced for `P` in the `ctxPC` run. -/
def entryP_PC : Obj :=
  { name := some "P", description := some "p", dependencies := some ["C"],
    steps := some ["sp"], added_by := some "cfbs add" }

/-- Build entry produced for `C` in the `ctxPC` run. -/
def entryC_PC : Obj :=
  { name := some "C", description := some "c", steps := some ["sc"], added_by := some "cfbs add" }

/-- First `B` entry of the `ctxABC` run (appended as a dependency of `C`). -/
def entryB_depC : Obj :=
  { name := some "B", description := some "b", steps := some ["sb"], added_by := some "C" }

/-- The `C` entry of the `ctxABC` run (appended as a dependency of `A`). -/
def entryC_depA : Obj :=
  { name := some "C", description := some "c", dependencies := some ["B"],
    steps := some ["sc"], added_by := some "A" }

/-- The `A` entry of the `ctxABC` run. -/
def entryA_user : Obj :=
  { name := some "A", description := some "a", dependencies := some ["C"],
    steps := some ["sa"], added_by := some "cfbs add" }

/-- Second `B` entry of the `ctxABC` run (appended again for the user request). -/
def entryB_user : Obj :=
  { name := some "B", description := some "b", steps := some ["sb"], added_by := some "cfbs add" }

/-- The `D` entry appended by the recursive add from `remotePD`. -/
def entryD_remote : Obj :=
  { name := some "D", description := some "d", url := some "https://ex.am/repo",
    commit := some "c0ffee", steps := some ["sd"], added_by := some "cfbs add" }

/-- The `P` entry appended by the recursive add from `remotePD`. -/
def entryP_remote : Obj :=
  { name := some "P", description := some "p", url := some "https://ex.am/repo",
    commit := some "c0ffee", dependencies := some ["D"], steps := some ["sp"],
    added_by := some "cfbs add" }

/-- The `a` entry of the mixed-attribution `ctxAB` run (attributed to `x`). -/
def entryA_x : Obj :=
  { name := some "a", description := some "a", steps := some ["sa"], added_by := some "x" }

/-- The `b` entry of the mixed-attribution `ctxAB` run (user requested). -/
def entryB_ab : Obj :=
  { name := some "b", description := some "b", steps := some ["sb"], added_by := some "cfbs add" }

/-- The promoted `x` entry after the explicit re-add in the `ctxX` scenario. -/
def entryXuser : Obj :=
  { name := some "x", description := some "x", steps := some ["sx"], added_by := some "cfbs add" }

/-- Build entry produced by adding the dependency-free module `one`. -/
def entryOne : Obj :=
  { name := some "one", description := some "o", steps := some ["so"], added_by := some "cfbs add" }

/-- Claim C1, counterexample: requesting `["a", "b"]` with both absent from
the catalog and not local paths does *not* produce one batched error naming
both; the translate loop exits at the first reference with an error naming
only `a` (the message does not even contain the letter `b`). -/
theorem C1_counterexample :
    add_modules 3 ctxEmpty ⟨[]⟩ ["a", "b"] (.str "cfbs add")
      = .error (.userError "Module \x27a\x27 does not exist")
    ∧ strContains "Module \x27a\x27 does not exist" "b" = false := by
  exact ⟨rfl, rfl⟩

/-- Claim C2, counterexample: a successful direct add of `["P", "C"]`, where
`P` depends on `C`, appends `P` before `C`; the dependency-ordering invariant
fails on the resulting build list. -/
theorem C2_counterexample :
    add_command 9 ctxPC ⟨[]⟩ ["P", "C"] (.str "cfbs add") none false
      = .ok (⟨[entryP_PC, entryC_PC]⟩, ["Added module: P", "Added module: C"], 0)
    ∧ depsBefore [entryP_PC, entryC_PC] = false := by
  exact ⟨rfl, rfl⟩

/-- Claim C3, evaluation at the failing input: requesting `["A", "B"]` where
`A → C → B` is the dependency chain makes the recursive dependency pass
append `B` (as a dependency of `C`), after which the stale `added` snapshot
lets the materialize loop append `B` a second time: the final build list
holds two entries named `B`, violating the uniqueness invariant. -/
theorem C3_duplicate_entry :
    add_command 9 ctxABC ⟨[]⟩ ["A", "B"] (.str "cfbs add") none false
      = .ok (⟨[entryB_depC, entryC_depA, entryA_user, entryB_user]⟩,
             ["Added module: B (Dependency of C)", "Added module: C (Dependency of A)",
              "Added module: A", "Added module: B"], 0)
    ∧ namesUnique [entryB_depC, entryC_depA, entryA_user, entryB_user] = false := by
  refine ⟨rfl, by decide⟩

/-- Claim C5, counterexample: adding `P` from a remote manifest recursively
appends its dependency `D`, but the stored `added_by` of the `D` entry is the
user-requested marker `"cfbs add"` (stamped by `_construct_provided_module`),
not the dependent's name `P`; `P` appears only in the printed message. -/
theorem C5_counterexample :
    add_with_dependencies 5 ctxEmpty (some remotePD) ⟨[]⟩ (.nm "P") none
      = .ok (⟨[entryD_remote, entryP_remote]⟩,
             ["Added module: D (Dependency of P)", "Added module: P"])
    ∧ entryD_remote.added_by = some "cfbs add"
    ∧ entryD_remote.added_by ≠ some "P" := by
  refine ⟨rfl, rfl, by decide⟩

/-- Claim C7, counterexample: declining the confirmation prompt of a remote
bulk add (answer `"n"`) makes `add_command` return success (`0`) with the
build list untouched — not an error diagnostic like the other error kinds. -/
theorem C7_counterexample :
    add_command 5 (ctxRemote "n") ⟨[]⟩ ["https://ex.am/repo"] (.str "cfbs add") none false
      = .ok (⟨[]⟩, ["Found 2 modules in \x27https://ex.am/repo\x27:", "  - P", "  - D",
                    "Do you want to add all 2 of them? [y/N] "], 0) := by
  rfl

/-- Claim C8, counterexample: `policy.txt` exists on disk, does not end in
`.cf`/`.json`/`/`, and is not a catalog key; `Index.exists` still returns
true (it calls bare `os.path.exists`), while the spec's description of
`exists` says false. -/
theorem C8_counterexample :
    index_exists ⟨[("policy.txt", .file "x")]⟩ [] "policy.txt" = true
    ∧ spec_index_exists ⟨[("policy.txt", .file "x")]⟩ [] "policy.txt" = false := by
  exact ⟨rfl, rfl⟩

/-- Claim C9, evaluation at the failing input: with mixed attributions
(`a` attributed to `x`, `b` user-requested), the materialize loop prints the
plain `Added module: a` for `a` — whose own attribution is *not* the
user-requested marker — because the printed branch reads the stale
`user_requested` value left by the filter loop's last iteration (`b`).  The
stored entry for `a` still carries `added_by = "x"`. -/
theorem C9_stale_user_requested :
    add_modules 3 ctxAB ⟨[]⟩ ["a", "b"] (.list ["x", "cfbs add"])
      = .ok (⟨[entryA_x, entryB_ab]⟩, ["Added module: a", "Added module: b"], 0)
    ∧ entryA_x.added_by = some "x"
    ∧ entryA_x.added_by ≠ some "cfbs add" := by
  refine ⟨rfl, rfl, by decide⟩

/-- Claim C10: calling the top-level `add_command` with an empty reference
list fails immediately with the fatal "Must specify at least one module to
add" diagnostic, for every context, starting state, attribution argument and
flag — before any URL dispatch or resolution can run, and with no successful
(state-mutating) outcome. -/
theorem C10_empty_add_fails (n : Nat) (ctx : Ctx) (st : St) (ab : AddedBy)
    (ck : Option String) (ni : Bool) :
    add_command (n + 1) ctx st [] ab ck ni
      = .error (.userError "Must specify at least one module to add") := by
  rfl

/-- On the two-module cycle `A → B → A`, every recursion budget is exhausted:
the direct-add path alternates `_add_modules`/`add_command` between `A` and
`B` without ever appending to `build` (the append happens only after the
dependency recursion returns), so the de-duplication snapshot `added` stays
empty and never breaks the loop. -/
theorem cyc_pack (n : Nat) :
    add_command n ctxCyc ⟨[]⟩ ["A"] (.list ["B"]) none false = .error .outOfFuel
    ∧ add_command n ctxCyc ⟨[]⟩ ["B"] (.list ["A"]) none false = .error .outOfFuel
    ∧ add_modules n ctxCyc ⟨[]⟩ ["A"] (.list ["B"]) = .error .outOfFuel
    ∧ add_modules n ctxCyc ⟨[]⟩ ["B"] (.list ["A"]) = .error .outOfFuel
    ∧ add_modules n ctxCyc ⟨[]⟩ ["A"] (.str "cfbs add") = .error .outOfFuel := by
  induction n with
  | zero => exact ⟨rfl, rfl, rfl, rfl, rfl⟩
  | succ m ih =>
    refine ⟨?_, ?_, ?_, ?_, ?_⟩
    · show add_modules m ctxCyc ⟨[]⟩ ["A"] (.list ["B"]) = .error .outOfFuel
      exact ih.2.2.1
    · show add_modules m ctxCyc ⟨[]⟩ ["B"] (.list ["A"]) = .error .outOfFuel
      exact ih.2.2.2.1
    · show afterDeps ctxCyc [("A", "B")] (some false) ["A"] [] []
        (add_command m ctxCyc ⟨[]⟩ ["B"] (.list ["A"]) none false) = .error .outOfFuel
      rw [ih.2.1]; rfl
    · show afterDeps ctxCyc [("B", "A")] (some false) ["B"] [] []
        (add_command m ctxCyc ⟨[]⟩ ["A"] (.list ["B"]) none false) = .error .outOfFuel
      rw [ih.1]; rfl
    · show afterDeps ctxCyc [("A", "cfbs add")] (some true) ["A"] [] []
        (add_command m ctxCyc ⟨[]⟩ ["B"] (.list ["A"]) none false) = .error .outOfFuel
      rw [ih.2.1]; rfl

/-- Claim C6 (amended): the recursive add procedures terminate when the
dependency expansion bottoms out (here: a dependency-free module succeeds on
a small budget), but on a dependency cycle between two distinct modules the
direct-add path exhausts *every* recursion budget: a module is appended to
`build` only *after* its dependencies are expanded, so the de-duplication
check never sees the in-flight module and does not break the cycle. -/
theorem C6_cycle_diverges :
    add_command 3 ctxOne ⟨[]⟩ ["one"] (.str "cfbs add") none false
      = .ok (⟨[entryOne]⟩, ["Added module: one"], 0)
    ∧ (∀ n : Nat, add_command n ctxCyc ⟨[]⟩ ["A"] (.str "cfbs add") none false
        = .error .outOfFuel) := by
  constructor
  · rfl
  · intro n
    match n with
    | 0 => rfl
    | m + 1 =>
      show add_modules m ctxCyc ⟨[]⟩ ["A"] (.str "cfbs add") = .error .outOfFuel
      exact (cyc_pack m).2.2.2.2

/-- Claim C6, counterexample: there is no fuel bound under which the add of
`A` in the cyclic catalog `A → B → A` completes — the procedure does not
terminate on this dependency graph. -/
theorem C6_counterexample :
    ¬ ∃ (n : Nat) (r : St × List String × Nat),
        add_command n ctxCyc ⟨[]⟩ ["A"] (.str "cfbs add") none false = .ok r := by
  rintro ⟨n, r, h⟩
  have h2 : add_command n ctxCyc ⟨[]⟩ ["A"] (.str "cfbs add") none false
      = .error .outOfFuel := by
    match n with
    | 0 => rfl
    | m + 1 =>
      show add_modules m ctxCyc ⟨[]⟩ ["A"] (.str "cfbs add") = .error .outOfFuel
      exact (cyc_pack m).2.2.2.2
  rw [h2] at h
  exact Except.noConfusion h

/-- Claim C1 (amended): when the first reference in the request list does not
exist anywhere (not on disk, not a catalog key), `_add_modules` fails during
translation with an error naming only that reference — for every starting
build list, so the failing call produces no successful (persistable) state.
The batched "Module(s) could not be found" error can only fire later, for
translated references such as alias targets missing from the catalog. -/
theorem C1_first_missing_fails (n : Nat) (ctx : Ctx) (st : St) (m : String)
    (rest : List String) (ab : AddedBy)
    (h : index_exists ctx.fs ctx.catalog m = false) :
    add_modules (n + 1) ctx st (m :: rest) ab
      = .error (.userError ("Module \x27" ++ m ++ "\x27 does not exist")) := by
  simp [add_modules, translateAll, translateOne, h]

/-- Witness for `C1_first_missing_fails` at the concrete input of the claim:
`["a", "b"]` against an empty catalog and empty filesystem. -/
theorem C1_witness :
    index_exists ctxEmpty.fs ctxEmpty.catalog "a" = false
    ∧ add_modules 3 ctxEmpty ⟨[]⟩ ["a", "b"] (.str "cfbs add")
        = .error (.userError ("Module \x27" ++ "a" ++ "\x27 does not exist")) :=
  ⟨rfl, C1_first_missing_fails 2 ctxEmpty ⟨[]⟩ "a" ["b"] (.str "cfbs add") rfl⟩

/-- Claim C8 (amended): `Index.exists(name)` is true exactly when `name` is an
existing filesystem path (with *no* restriction on its suffix) or a key of
the catalog. -/
theorem C8_exists_path_or_catalog (fs : FS) (catalog : List (String × Obj)) (m : String) :
    index_exists fs catalog m = true
      ↔ (fsExists fs m = true ∨ (lookupA catalog m).isSome = true) := by
  simp [index_exists]

/-- Claim C7 (amended): whenever the interactive answer to a remote bulk-add
confirmation is anything other than `y`/`yes` (case-insensitively), the
operation returns success (`0`) after printing only the module listing and
prompt, leaving the build list untouched — it does *not* raise an error
diagnostic the way the other failure kinds do. -/
theorem C7_decline_returns_success (ans : String)
    (h : strToLower ans ≠ "y" ∧ strToLower ans ≠ "yes") :
    add_command 5 (ctxRemote ans) ⟨[]⟩ ["https://ex.am/repo"] (.str "cfbs add") none false
      = .ok (⟨[]⟩, ["Found 2 modules in \x27https://ex.am/repo\x27:", "  - P", "  - D",
                    "Do you want to add all 2 of them? [y/N] "], 0) := by
  show (if strToLower ans ≠ "y" ∧ strToLower ans ≠ "yes" then
          (Except.ok (⟨[]⟩, ["Found 2 modules in \x27https://ex.am/repo\x27:", "  - P", "  - D",
                             "Do you want to add all 2 of them? [y/N] "], 0) :
            Except Err (St × List String × Nat))
        else
          match awdForEach 4 (ctxRemote ans) (some remotePD) ⟨[]⟩ [entryP_remote, entryD_remote] with
          | .error e => .error e
          | .ok (st1, out1) =>
            .ok (st1, ["Found 2 modules in \x27https://ex.am/repo\x27:", "  - P", "  - D",
                       "Do you want to add all 2 of them? [y/N] "] ++ out1, 0))
      = _
  rw [if_pos h]

/-- Witness for `C7_decline_returns_success` at the concrete declining answer
`"n"`. -/
theorem C7_witness :
    (strToLower "n" ≠ "y" ∧ strToLower "n" ≠ "yes")
    ∧ add_command 5 (ctxRemote "n") ⟨[]⟩ ["https://ex.am/repo"] (.str "cfbs add") none false
        = .ok (⟨[]⟩, ["Found 2 modules in \x27https://ex.am/repo\x27:", "  - P", "  - D",
                      "Do you want to add all 2 of them? [y/N] "], 0) :=
  ⟨by decide, C7_decline_returns_success "n" (by decide)⟩

/-- Fields of a successfully constructed provided module: `name` is the
requested key, `added_by` is always the user-requested marker, and `steps`
is present. -/
theorem construct_fields (name : String) (data : Obj) (url commit : Option String) (m : Obj)
    (h : construct_provided_module name data url commit = .ok m) :
    m.name = some name ∧ m.added_by = some "cfbs add" := by
  rcases hd : data.description with _ | desc
  · rw [construct_provided_module, hd] at h
    exact absurd h (by simp)
  · rcases hs : data.steps with _ | steps
    · rw [construct_provided_module, hd] at h
      simp [hs] at h
    · rw [construct_provided_module, hd] at h
      simp only [hs, Except.ok.injEq] at h
      rw [← h]
      exact ⟨rfl, rfl⟩

/-- `lookupA` only returns values of pairs present in the list. -/
theorem lookupA_mem {α : Type} (l : List (String × α)) (key : String) (v : α)
    (h : lookupA l key = some v) : (key, v) ∈ l := by
  induction l with
  | nil => exact absurd h (by simp [lookupA])
  | cons p rest ih =>
    rw [lookupA] at h
    by_cases hk : p.1 = key
    · rw [if_pos hk] at h
      have hv : p.2 = v := by injection h
      have hp : (key, v) = p := by
        rw [← hk, ← hv]
      rw [hp]
      exact List.mem_cons_self _ _
    · rw [if_neg hk] at h
      exact List.mem_cons_of_mem _ (ih h)

/-- In a well-formed catalog, `get_module_object` returns either a local
object without a `name` key or an object named by the requested key. -/
theorem gmo_name (fs : FS) (catalog : List (String × Obj)) (s : String) (m : Obj)
    (hwf : wfCatalog catalog) (h : get_module_object fs catalog s = .ok m) :
    m.name = none ∨ m.name = some s := by
  rw [get_module_object] at h
  by_cases hloc : strStartsWith s "./" = true
  · rw [if_pos hloc] at h
    rw [generate_local_module_object] at h
    split at h
    · exact absurd h (by simp)
    · split at h
      · exact absurd h (by simp)
      · split at h
        · exact absurd h (by simp)
        · cases h
          left
          rfl
        · split at h
          · cases h
            left
            rfl
          · split at h
            · cases h
              left
              rfl
            · exact absurd h (by simp)
  · rw [if_neg hloc] at h
    rcases hl : lookupA catalog s with _ | entry
    · rw [hl] at h
      exact absurd h (by simp)
    · rw [hl] at h
      cases h
      have hn : entry.name = none := hwf _ (lookupA_mem catalog s entry hl)
      right
      simp [hn]

/-- In a well-formed catalog (and any `provides` section), a module resolved
by `get_module_for_build` for name `s` is either unnamed or named `s`. -/
theorem gmfb_name (provides : Option (List (String × Obj))) (url commit : Option String)
    (catalog : List (String × Obj)) (fs : FS) (s : String) (m : Obj)
    (hwf : wfCatalog catalog)
    (h : get_module_for_build provides url commit catalog fs s = .ok (some m)) :
    m.name = none ∨ m.name = some s := by
  rw [get_module_for_build.eq_def] at h
  rcases provides with _ | provs <;> dsimp only [] at h
  · split at h
    · split at h
      · cases h
        exact gmo_name fs catalog s m hwf (by assumption)
      · exact absurd h (by simp)
    · exact absurd h (by simp)
  · rcases hl : lookupA provs s with _ | data <;> rw [hl] at h <;> dsimp only [] at h
    · split at h
      · split at h
        · cases h
          exact gmo_name fs catalog s m hwf (by assumption)
        · exact absurd h (by simp)
      · exact absurd h (by simp)
    · split at h
      · cases h
        right
        exact (construct_fields s data url commit m (by assumption)).1
      · exact absurd h (by simp)

/-- Unfolding equation of `depsBeforeFrom` on the empty build list. -/
theorem depsBeforeFrom_nil (seen : List (Option String)) : depsBeforeFrom seen [] = true := rfl

/-- Unfolding equation of `depsBeforeFrom` on a cons. -/
theorem depsBeforeFrom_cons (seen : List (Option String)) (m : Obj) (rest : List Obj) :
    depsBeforeFrom seen (m :: rest)
      = (((depList m).all fun d => decide (some d ∈ seen))
         && depsBeforeFrom (seen ++ [m.name]) rest) := rfl

/-- Appending one entry to the build list: the invariant holds for the longer
list iff it held before and every dependency of the new entry names an
existing entry. -/
theorem depsBeforeFrom_append (b : List Obj) (seen : List (Option String)) (m : Obj) :
    depsBeforeFrom seen (b ++ [m])
      = (depsBeforeFrom seen b
         && ((depList m).all fun d => decide (some d ∈ seen ++ b.map (fun x => x.name)))) := by
  induction b generalizing seen with
  | nil =>
    simp only [List.nil_append, List.map_nil, List.append_nil, depsBeforeFrom_nil,
      depsBeforeFrom_cons, Bool.and_true, Bool.true_and]
  | cons a bs ih =>
    simp only [List.cons_append, depsBeforeFrom_cons, ih (seen ++ [a.name]), List.map_cons,
      Bool.and_assoc, List.append_assoc, List.singleton_append, List.nil_append]

/-- Specialization to `depsBefore`. -/
theorem depsBefore_append (b : List Obj) (m : Obj) :
    depsBefore (b ++ [m])
      = (depsBefore b && ((depList m).all fun d => decide (some d ∈ b.map (fun x => x.name)))) := by
  have h := depsBeforeFrom_append b [] m
  simpa [depsBefore] using h

/-- Membership in the name projection survives appending more entries. -/
theorem mem_names_append (x : Option String) (b suf : List Obj)
    (h : x ∈ b.map (fun m => m.name)) : x ∈ (b ++ suf).map (fun m => m.name) := by
  rw [List.map_append]
  exact List.mem_append_left _ h

/-- A build entry found by `module_is_in_build` contributes its name. -/
theorem module_is_in_build_mem (st : St) (module : Obj)
    (h : module_is_in_build st module = true) :
    module.name ∈ st.build.map (fun m => m.name) := by
  rw [module_is_in_build, List.any_eq_true] at h
  obtain ⟨m', hm', he⟩ := h
  rw [beq_iff_eq] at he
  rw [← he]
  exact List.mem_map_of_mem _ hm'

/-- Unfolding: no fuel. -/
theorem awd_zero (ctx : Ctx) (rc : Option RemoteSrc) (st : St) (mon : ModOrName)
    (dep : Option String) : add_with_dependencies 0 ctx rc st mon dep = .error .outOfFuel := rfl

/-- Unfolding of `add_with_dependencies` at positive fuel. -/
theorem awd_succ (n : Nat) (ctx : Ctx) (rc : Option RemoteSrc) (st : St) (mon : ModOrName)
    (dep : Option String) :
    add_with_dependencies (n + 1) ctx rc st mon dep
      = match awd_resolve ctx rc mon with
        | .error e => .error e
        | .ok module =>
          if module.name.isNone then .error (.assertError "name in module") else
          if module.steps.isNone then .error (.assertError "steps in module") else
          if module_is_in_build st module then
            .ok (st, ["Skipping already added module \x27" ++ module.name.getD "" ++ "\x27"])
          else
            awd_finish ctx module dep
              (match module.dependencies with
               | some deps => awdList n ctx rc st deps (module.name.getD "")
               | none => .ok (st, [])) := rfl

/-- Unfolding: the dependency loop on an empty list. -/
theorem awdList_nil (n : Nat) (ctx : Ctx) (rc : Option RemoteSrc) (st : St) (parent : String) :
    awdList n ctx rc st [] parent = .ok (st, []) := by
  cases n <;> rfl

/-- Unfolding: the dependency loop out of fuel. -/
theorem awdList_zero (ctx : Ctx) (rc : Option RemoteSrc) (st : St) (d : String)
    (ds : List String) (parent : String) :
    awdList 0 ctx rc st (d :: ds) parent = .error .outOfFuel := rfl

/-- Unfolding of the dependency loop at positive fuel. -/
theorem awdList_succ (n : Nat) (ctx : Ctx) (rc : Option RemoteSrc) (st : St) (d : String)
    (ds : List String) (parent : String) :
    awdList (n + 1) ctx rc st (d :: ds) parent
      = match add_with_dependencies n ctx rc st (.nm d) (some parent) with
        | .error e => .error e
        | .ok (st1, o1) =>
          match awdList n ctx rc st1 ds parent with
          | .error e => .error e
          | .ok (st2, o2) => .ok (st2, o1 ++ o2) := rfl

/-- A name resolved by `awd_resolve` (against well-formed catalogs) is either
unnamed (a local module object) or carries the requested name. -/
theorem awd_resolve_name (ctx : Ctx) (rc : Option RemoteSrc) (s : String) (module : Obj)
    (hwf1 : wfCatalog ctx.catalog) (hwf2 : wfCatalog (rcCatalog rc))
    (h : awd_resolve ctx rc (.nm s) = .ok module) :
    module.name = none ∨ module.name = some s := by
  rw [awd_resolve.eq_def] at h
  rcases rc with _ | r <;> dsimp only [] at h
  · rcases hg : get_module_for_build ctx.localProvides none none ctx.catalog ctx.fs s
      with _ | mo <;> rw [hg] at h <;> (try dsimp only [] at h)
    · exact absurd h (by simp)
    · rcases mo with _ | m0
      · exact absurd h (by simp)
      · cases h
        exact gmfb_name _ _ _ _ _ _ _ hwf1 hg
  · rcases hg : get_module_for_build r.provides r.url r.commit r.catalog ctx.fs s
      with _ | mo <;> rw [hg] at h <;> (try dsimp only [] at h)
    · exact absurd h (by simp)
    · rcases mo with _ | m0
      · exact absurd h (by simp)
      · cases h
        exact gmfb_name _ _ _ _ _ _ _ hwf2 hg

/-- Unfolding: a failed dependency loop aborts the append. -/
theorem awd_finish_error (ctx : Ctx) (module : Obj) (dep : Option String) (e : Err) :
    awd_finish ctx module dep (.error e) = .error e := rfl

/-- Unfolding of `awd_finish` on a successful dependency loop. -/
theorem awd_finish_ok (ctx : Ctx) (module : Obj) (dep : Option String) (st1 : St)
    (out1 : List String) :
    awd_finish ctx module dep (.ok (st1, out1))
      = match validate_added_module ctx module with
        | .error e => .error e
        | .ok warns =>
          .ok (⟨st1.build ++ [module]⟩,
               out1 ++ [match dep with
                        | some dp =>
                          if dp = "" then "Added module: " ++ module.name.getD ""
                          else "Added module: " ++ module.name.getD "" ++ " (Dependency of " ++ dp ++ ")"
                        | none => "Added module: " ++ module.name.getD ""] ++ warns) := rfl

/-- Invariant pack for the recursive add: a successful
`add_with_dependencies` (resp. its dependency loop) only appends to the build
list, preserves the dependency-ordering invariant, and guarantees that the
requested name (resp. every dependency of the processed list) names some
entry of the resulting build list. -/
theorem awd_pack (n : Nat) :
    (∀ (ctx : Ctx) (rc : Option RemoteSrc) (st : St) (mon : ModOrName) (dep : Option String)
       (st' : St) (out : List String),
       wfCatalog ctx.catalog → wfCatalog (rcCatalog rc) →
       add_with_dependencies n ctx rc st mon dep = .ok (st', out) →
       (∃ suf, st'.build = st.build ++ suf)
       ∧ (depsBefore st.build = true → depsBefore st'.build = true)
       ∧ (∀ s, mon = .nm s → some s ∈ st'.build.map (fun m => m.name)))
    ∧ (∀ (ctx : Ctx) (rc : Option RemoteSrc) (st : St) (deps : List String) (parent : String)
       (st' : St) (out : List String),
       wfCatalog ctx.catalog → wfCatalog (rcCatalog rc) →
       awdList n ctx rc st deps parent = .ok (st', out) →
       (∃ suf, st'.build = st.build ++ suf)
       ∧ (depsBefore st.build = true → depsBefore st'.build = true)
       ∧ (∀ d ∈ deps, some d ∈ st'.build.map (fun m => m.name))) := by
  induction n with
  | zero =>
    constructor
    · intro ctx rc st mon dep st' out _ _ h
      rw [awd_zero] at h
      exact absurd h (by simp)
    · intro ctx rc st deps parent st' out _ _ h
      cases deps with
      | nil =>
        rw [awdList_nil] at h
        cases h
        exact ⟨⟨[], by simp⟩, fun hh => hh, by simp⟩
      | cons d ds =>
        rw [awdList_zero] at h
        exact absurd h (by simp)
  | succ m ih =>
    constructor
    · intro ctx rc st mon dep st' out hwf1 hwf2 h
      rw [awd_succ] at h
      cases hres : awd_resolve ctx rc mon with
      | error e =>
        rw [hres] at h
        exact absurd h (by simp)
      | ok module =>
        rw [hres] at h
        dsimp only [] at h
        split at h
        · exact absurd h (by simp)
        · rename_i hnn
          split at h
          · exact absurd h (by simp)
          · rename_i hns
            split at h
            · rename_i hib
              cases h
              refine ⟨⟨[], by simp⟩, fun hh => hh, ?_⟩
              intro s hmon
              subst hmon
              rcases awd_resolve_name ctx rc s module hwf1 hwf2 hres with hno | hsome
              · exact absurd (by rw [hno]; rfl) hnn
              · have hmem := module_is_in_build_mem st module hib
                rw [hsome] at hmem
                exact hmem
            · rename_i hib
              cases hdeps : module.dependencies with
              | none =>
                rw [hdeps] at h
                dsimp only [] at h
                rw [awd_finish_ok] at h
                cases hv : validate_added_module ctx module with
                | error e =>
                  rw [hv] at h
                  exact absurd h (by simp)
                | ok warns =>
                  rw [hv] at h
                  dsimp only [] at h
                  cases h
                  refine ⟨⟨[module], rfl⟩, ?_, ?_⟩
                  · intro hib0
                    rw [depsBefore_append, Bool.and_eq_true]
                    exact ⟨hib0, by simp [depList, hdeps]⟩
                  · intro s hmon
                    subst hmon
                    rcases awd_resolve_name ctx rc s module hwf1 hwf2 hres with hno | hsome
                    · exact absurd (by rw [hno]; rfl) hnn
                    · rw [List.map_append]
                      refine List.mem_append_right _ ?_
                      simp [hsome]
              | some deps =>
                rw [hdeps] at h
                dsimp only [] at h
                cases hl : awdList m ctx rc st deps (module.name.getD "") with
                | error e =>
                  rw [hl, awd_finish_error] at h
                  exact absurd h (by simp)
                | ok q =>
                  rw [hl] at h
                  obtain ⟨st1, out1⟩ := q
                  rw [awd_finish_ok] at h
                  cases hv : validate_added_module ctx module with
                  | error e =>
                    rw [hv] at h
                    exact absurd h (by simp)
                  | ok warns =>
                    rw [hv] at h
                    dsimp only [] at h
                    cases h
                    obtain ⟨hext1, hinv1, hpres1⟩ :=
                      ih.2 ctx rc st deps (module.name.getD "") st1 out1 hwf1 hwf2 hl
                    obtain ⟨suf1, hsuf1⟩ := hext1
                    refine ⟨⟨suf1 ++ [module], by rw [hsuf1, List.append_assoc]⟩, ?_, ?_⟩
                    · intro hib0
                      rw [depsBefore_append, Bool.and_eq_true]
                      refine ⟨hinv1 hib0, ?_⟩
                      rw [List.all_eq_true]
                      intro d hd
                      rw [decide_eq_true_eq]
                      refine hpres1 d ?_
                      simpa [depList, hdeps] using hd
                    · intro s hmon
                      subst hmon
                      rcases awd_resolve_name ctx rc s module hwf1 hwf2 hres with hno | hsome
                      · exact absurd (by rw [hno]; rfl) hnn
                      · rw [List.map_append]
                        refine List.mem_append_right _ ?_
                        simp [hsome]
    · intro ctx rc st deps parent st' out hwf1 hwf2 h
      cases deps with
      | nil =>
        rw [awdList_nil] at h
        cases h
        exact ⟨⟨[], by simp⟩, fun hh => hh, by simp⟩
      | cons d ds =>
        rw [awdList_succ] at h
        cases ha : add_with_dependencies m ctx rc st (.nm d) (some parent) with
        | error e =>
          rw [ha] at h
          exact absurd h (by simp)
        | ok p =>
          rw [ha] at h
          obtain ⟨st1, o1⟩ := p
          dsimp only [] at h
          cases hl : awdList m ctx rc st1 ds parent with
          | error e =>
            rw [hl] at h
            exact absurd h (by simp)
          | ok q =>
            rw [hl] at h
            obtain ⟨st2, o2⟩ := q
            dsimp only [] at h
            cases h
            obtain ⟨⟨sufa, hsufa⟩, hinva, hpresa⟩ :=
              ih.1 ctx rc st (.nm d) (some parent) st1 o1 hwf1 hwf2 ha
            obtain ⟨⟨sufl, hsufl⟩, hinvl, hpresl⟩ :=
              ih.2 ctx rc st1 ds parent st' o2 hwf1 hwf2 hl
            refine ⟨⟨sufa ++ sufl, by rw [hsufl, hsufa, List.append_assoc]⟩,
                    fun hib0 => hinvl (hinva hib0), ?_⟩
            intro d' hd'
            rcases List.mem_cons.mp hd' with hdd | hds
            · subst hdd
              have := hpresa d' rfl
              rw [hsufl]
              exact mem_names_append _ _ _ this
            · exact hpresl d' hds

/-- Claim C2 (amended): after any successful add through the *recursive*
`add_with_dependencies` path (run against catalogs whose entries carry no
explicit `name` key, the normal shape of a cfbs index), the dependency
ordering invariant is preserved: if every entry's dependencies appeared
earlier beforehand, the same holds afterwards — dependencies are fully
appended before their dependent.  The direct `_add_modules` path does *not*
guarantee this when a reference is requested in the same batch after a
dependent of it (see the counterexample). -/
theorem C2_awd_preserves_ordering (n : Nat) (ctx : Ctx) (rc : Option RemoteSrc) (st : St)
    (mon : ModOrName) (dep : Option String) (st' : St) (out : List String)
    (hwf1 : wfCatalog ctx.catalog) (hwf2 : wfCatalog (rcCatalog rc))
    (hinv : depsBefore st.build = true)
    (h : add_with_dependencies n ctx rc st mon dep = .ok (st', out)) :
    depsBefore st'.build = true :=
  ((awd_pack n).1 ctx rc st mon dep st' out hwf1 hwf2 h).2.1 hinv

/-- Witness for `C2_awd_preserves_ordering` on the concrete remote scenario:
adding `P` (which depends on `D`) appends `D` before `P`, and the invariant
holds on the result. -/
theorem C2_witness :
    wfCatalog ctxEmpty.catalog
    ∧ wfCatalog (rcCatalog (some remotePD))
    ∧ depsBefore (⟨[]⟩ : St).build = true
    ∧ add_with_dependencies 5 ctxEmpty (some remotePD) ⟨[]⟩ (.nm "P") none
        = .ok (⟨[entryD_remote, entryP_remote]⟩,
               ["Added module: D (Dependency of P)", "Added module: P"])
    ∧ depsBefore [entryD_remote, entryP_remote] = true := by
  refine ⟨?_, ?_, rfl, rfl, ?_⟩
  · intro p hp
    simp [ctxEmpty] at hp
  · intro p hp
    simp [rcCatalog, remotePD] at hp
  · exact C2_awd_preserves_ordering 5 ctxEmpty (some remotePD) ⟨[]⟩ (.nm "P") none
      ⟨[entryD_remote, entryP_remote]⟩
      ["Added module: D (Dependency of P)", "Added module: P"]
      (fun p hp => by simp [ctxEmpty] at hp)
      (fun p hp => by simp [rcCatalog, remotePD] at hp)
      rfl rfl

/-- Claim C5 (amended): a module appended by the recursive add because it was
a declared dependency does *not* carry the dependent module's name in
`added_by`: every module built by `_construct_provided_module` (the
remote-provides source) is stamped `added_by = "cfbs add"` — the
user-requested marker — and the dependent's name appears only in the printed
"(Dependency of ...)" message, as the concrete run shows. -/
theorem C5_dependency_attribution :
    (∀ (name : String) (data : Obj) (url commit : Option String) (m : Obj),
        construct_provided_module name data url commit = .ok m →
        m.added_by = some "cfbs add")
    ∧ add_with_dependencies 5 ctxEmpty (some remotePD) ⟨[]⟩ (.nm "P") none
        = .ok (⟨[entryD_remote, entryP_remote]⟩,
               ["Added module: D (Dependency of P)", "Added module: P"]) :=
  ⟨fun name data url commit m h => (construct_fields name data url commit m h).2, rfl⟩

/-- Witness for `C5_dependency_attribution` at the concrete provided module
`D` of the remote scenario. -/
theorem C5_witness :
    construct_provided_module "D" { description := some "d", steps := some ["sd"] }
        (some "https://ex.am/repo") (some "c0ffee") = .ok entryD_remote
    ∧ entryD_remote.added_by = some "cfbs add" :=
  ⟨rfl, C5_dependency_attribution.1 "D" { description := some "d", steps := some ["sd"] }
      (some "https://ex.am/repo") (some "c0ffee") entryD_remote rfl⟩

/-- Unfolding: `_add_modules` with no fuel. -/
theorem add_modules_zero (ctx : Ctx) (st : St) (ta : List String) (ab : AddedBy) :
    add_modules 0 ctx st ta ab = .error .outOfFuel := rfl

/-- Unfolding of `_add_modules` at positive fuel. -/
theorem add_modules_succ (n : Nat) (ctx : Ctx) (st : St) (ta : List String) (ab : AddedBy) :
    add_modules (n + 1) ctx st ta ab
      = match translateAll ctx ta with
        | .error e => .error e
        | .ok (ta2, out0) =>
          match mkAbMap ab ta2 with
          | .error e => .error e
          | .ok abMap =>
            if ta2.any (fun k => (lookupLast abMap k).isNone) then
              .error (.assertError "not any(k not in added_by for k in to_add)")
            else
              let missing := ta2.filter (fun m =>
                (!strStartsWith m "./") && (lookupA ctx.catalog m).isNone)
              if missing ≠ [] then
                .error (.userError ("Module(s) could not be found: " ++ joinComma missing))
              else
                let build1 := st.build.map (promoteEntry abMap ta2)
                let added0 := build1.map (fun m => m.name.getD "")
                let fp := filterPass abMap added0 ta2 [] [] none
                match discoverDeps ctx added0 fp.1 fp.1 [] [] with
                | .error e => .error e
                | .ok (deps, depsBy) =>
                  afterDeps ctx abMap fp.2.2 fp.1 out0 fp.2.1
                    (if deps ≠ [] then add_command n ctx ⟨build1⟩ deps (.list depsBy) none false
                     else .ok (⟨build1⟩, [], 0)) := rfl

/-- Unfolding: `add_command` with no fuel. -/
theorem add_command_zero (ctx : Ctx) (st : St) (ta : List String) (ab : AddedBy)
    (ck : Option String) (ni : Bool) :
    add_command 0 ctx st ta ab ck ni = .error .outOfFuel := rfl

/-- Unfolding of `add_command` at positive fuel on a non-empty request. -/
theorem add_command_succ (n : Nat) (ctx : Ctx) (st : St) (first : String)
    (rest : List String) (ab : AddedBy) (ck : Option String) (ni : Bool) :
    add_command (n + 1) ctx st (first :: rest) ab ck ni
      = if SUPPORTED_ARCHIVES.any (fun suf => strEndsWith first suf) ||
           strStartsWith first "https://" || strStartsWith first "git://" ||
           strStartsWith first "ssh://" then
          add_using_url n ctx st first rest ni
        else
          add_modules n ctx st (first :: rest) ab := rfl

/-- `promoteEntry` never changes the entry's name. -/
theorem promoteEntry_name (abMap : List (String × String)) (ta : List String) (m : Obj) :
    (promoteEntry abMap ta m).name = m.name := by
  rw [promoteEntry.eq_def]
  rcases hm : m.name with _ | nm
  · exact hm
  · dsimp only []
    split
    · split
      · rfl
      · exact hm
    · exact hm

/-- `promoteEntry` never removes the user-requested marker. -/
theorem promoteEntry_keeps_marker (abMap : List (String × String)) (ta : List String) (m : Obj)
    (h : m.added_by = some "cfbs add") :
    (promoteEntry abMap ta m).added_by = some "cfbs add" := by
  rw [promoteEntry.eq_def]
  rcases hm : m.name with _ | nm
  · exact h
  · dsimp only []
    split
    · split
      · rfl
      · exact h
    · exact h

/-- `promoteEntry` sets the marker on an entry being re-added with it. -/
theorem promoteEntry_promotes (abMap : List (String × String)) (ta : List String) (m : Obj)
    (X : String) (hn : m.name = some X) (hta : X ∈ ta)
    (hab : lookupLast abMap X = some "cfbs add") :
    (promoteEntry abMap ta m).added_by = some "cfbs add" := by
  rw [promoteEntry.eq_def, hn]
  dsimp only []
  rw [if_pos hta, if_pos hab]

/-- `preservesMark` is reflexive. -/
theorem preservesMark_refl (b : List Obj) : preservesMark b b := by
  induction b with
  | nil => trivial
  | cons a as ih => exact ⟨fun hh => hh, ih⟩

/-- `preservesMark` is transitive. -/
theorem preservesMark_trans (a b c : List Obj)
    (h1 : preservesMark a b) (h2 : preservesMark b c) : preservesMark a c := by
  induction a generalizing b c with
  | nil => trivial
  | cons x xs ih =>
    cases b with
    | nil => exact absurd h1 (by simp [preservesMark])
    | cons y ys =>
      cases c with
      | nil => exact absurd h2 (by simp [preservesMark])
      | cons z zs =>
        exact ⟨fun hx => h2.1 (h1.1 hx), ih ys zs h1.2 h2.2⟩

/-- Appending entries preserves the marker at existing positions. -/
theorem preservesMark_append (b suf : List Obj) : preservesMark b (b ++ suf) := by
  induction b with
  | nil => trivial
  | cons a as ih => exact ⟨fun hh => hh, ih⟩

/-- Mapping a marker-preserving function preserves the marker. -/
theorem preservesMark_map (b : List Obj) (f : Obj → Obj)
    (hf : ∀ m, m.added_by = some "cfbs add" → (f m).added_by = some "cfbs add") :
    preservesMark b (b.map f) := by
  induction b with
  | nil => trivial
  | cons a as ih => exact ⟨hf a, ih⟩

/-- Unfolding: the materialize loop on an empty list. -/
theorem materialize_nil (ctx : Ctx) (ab : List (String × String)) (lur : Option Bool) (st : St) :
    materialize ctx ab lur st [] = .ok (st, []) := rfl

/-- Unfolding of the materialize loop on a cons. -/
theorem materialize_cons (ctx : Ctx) (ab : List (String × String)) (lur : Option Bool)
    (st : St) (m : String) (ms : List String) :
    materialize ctx ab lur st (m :: ms)
      = if ¬ index_exists ctx.fs ctx.catalog m then .error (.assertError "index.exists(module)")
        else
          match get_module_object ctx.fs ctx.catalog m with
          | .error e => .error e
          | .ok data =>
            match lur with
            | none => .error (.assertError "NameError: user_requested referenced before assignment")
            | some ur =>
              match validate_added_module ctx (materializeEntry ab m data) with
              | .error e => .error e
              | .ok warns =>
                match materialize ctx ab lur ⟨st.build ++ [materializeEntry ab m data]⟩ ms with
                | .error e => .error e
                | .ok (st2, outs) =>
                  .ok (st2,
                       (if ur then "Added module: " ++ m
                        else "Added module: " ++ m ++ " (Dependency of "
                             ++ (lookupLast ab m).getD "" ++ ")") :: warns ++ outs) := rfl

/-- The materialize loop only appends to the build list. -/
theorem materialize_ext (ctx : Ctx) (ab : List (String × String)) (lur : Option Bool) :
    ∀ (l : List String) (st st' : St) (out : List String),
    materialize ctx ab lur st l = .ok (st', out) → ∃ suf, st'.build = st.build ++ suf := by
  intro l
  induction l with
  | nil =>
    intro st st' out h
    rw [materialize_nil] at h
    cases h
    exact ⟨[], by simp⟩
  | cons m ms ih =>
    intro st st' out h
    rw [materialize_cons] at h
    split at h
    · exact absurd h (by simp)
    · cases hg : get_module_object ctx.fs ctx.catalog m with
      | error e =>
        rw [hg] at h
        exact absurd h (by simp)
      | ok data =>
        rw [hg] at h
        dsimp only [] at h
        split at h
        · exact absurd h (by simp)
        · rename_i ur
          cases hv : validate_added_module ctx (materializeEntry ab m data) with
          | error e =>
            rw [hv] at h
            exact absurd h (by simp)
          | ok warns =>
            rw [hv] at h
            dsimp only [] at h
            cases hrec : materialize ctx ab (some ur) ⟨st.build ++ [materializeEntry ab m data]⟩ ms with
            | error e =>
              rw [hrec] at h
              exact absurd h (by simp)
            | ok q =>
              rw [hrec] at h
              obtain ⟨st2, outs⟩ := q
              dsimp only [] at h
              cases h
              obtain ⟨suf, hsuf⟩ := ih _ _ _ hrec
              refine ⟨materializeEntry ab m data :: suf, ?_⟩
              rw [hsuf]
              simp

/-- The recursive add only appends to the build list (no well-formedness
assumptions needed). -/
theorem awd_ext_pack (n : Nat) :
    (∀ (ctx : Ctx) (rc : Option RemoteSrc) (st : St) (mon : ModOrName) (dep : Option String)
       (st' : St) (out : List String),
       add_with_dependencies n ctx rc st mon dep = .ok (st', out) →
       ∃ suf, st'.build = st.build ++ suf)
    ∧ (∀ (ctx : Ctx) (rc : Option RemoteSrc) (st : St) (deps : List String) (parent : String)
       (st' : St) (out : List String),
       awdList n ctx rc st deps parent = .ok (st', out) →
       ∃ suf, st'.build = st.build ++ suf) := by
  induction n with
  | zero =>
    constructor
    · intro ctx rc st mon dep st' out h
      rw [awd_zero] at h
      exact absurd h (by simp)
    · intro ctx rc st deps parent st' out h
      cases deps with
      | nil =>
        rw [awdList_nil] at h
        cases h
        exact ⟨[], by simp⟩
      | cons d ds =>
        rw [awdList_zero] at h
        exact absurd h (by simp)
  | succ m ih =>
    constructor
    · intro ctx rc st mon dep st' out h
      rw [awd_succ] at h
      cases hres : awd_resolve ctx rc mon with
      | error e =>
        rw [hres] at h
        exact absurd h (by simp)
      | ok module =>
        rw [hres] at h
        dsimp only [] at h
        split at h
        · exact absurd h (by simp)
        · split at h
          · exact absurd h (by simp)
          · split at h
            · cases h
              exact ⟨[], by simp⟩
            · cases hdeps : module.dependencies with
              | none =>
                rw [hdeps] at h
                dsimp only [] at h
                rw [awd_finish_ok] at h
                cases hv : validate_added_module ctx module with
                | error e =>
                  rw [hv] at h
                  exact absurd h (by simp)
                | ok warns =>
                  rw [hv] at h
                  dsimp only [] at h
                  cases h
                  exact ⟨[module], rfl⟩
              | some deps =>
                rw [hdeps] at h
                dsimp only [] at h
                cases hl : awdList m ctx rc st deps (module.name.getD "") with
                | error e =>
                  rw [hl, awd_finish_error] at h
                  exact absurd h (by simp)
                | ok q =>
                  rw [hl] at h
                  obtain ⟨st1, out1⟩ := q
                  rw [awd_finish_ok] at h
                  cases hv : validate_added_module ctx module with
                  | error e =>
                    rw [hv] at h
                    exact absurd h (by simp)
                  | ok warns =>
                    rw [hv] at h
                    dsimp only [] at h
                    cases h
                    obtain ⟨suf1, hsuf1⟩ := ih.2 ctx rc st deps (module.name.getD "") st1 out1 hl
                    exact ⟨suf1 ++ [module], by rw [hsuf1, List.append_assoc]⟩
    · intro ctx rc st deps parent st' out h
      cases deps with
      | nil =>
        rw [awdList_nil] at h
        cases h
        exact ⟨[], by simp⟩
      | cons d ds =>
        rw [awdList_succ] at h
        cases ha : add_with_dependencies m ctx rc st (.nm d) (some parent) with
        | error e =>
          rw [ha] at h
          exact absurd h (by simp)
        | ok p =>
          rw [ha] at h
          obtain ⟨st1, o1⟩ := p
          dsimp only [] at h
          cases hl : awdList m ctx rc st1 ds parent with
          | error e =>
            rw [hl] at h
            exact absurd h (by simp)
          | ok q =>
            rw [hl] at h
            obtain ⟨st2, o2⟩ := q
            dsimp only [] at h
            cases h
            obtain ⟨sufa, hsufa⟩ := ih.1 ctx rc st (.nm d) (some parent) st1 o1 ha
            obtain ⟨sufl, hsufl⟩ := ih.2 ctx rc st1 ds parent st' o2 hl
            exact ⟨sufa ++ sufl, by rw [hsufl, hsufa, List.append_assoc]⟩

/-- The `_add_using_url` module loop only appends to the build list. -/
theorem awdForEach_ext (fuel : Nat) (ctx : Ctx) (rc : Option RemoteSrc) :
    ∀ (ms : List Obj) (st st' : St) (out : List String),
    awdForEach fuel ctx rc st ms = .ok (st', out) → ∃ suf, st'.build = st.build ++ suf := by
  intro ms
  induction ms with
  | nil =>
    intro st st' out h
    rw [awdForEach] at h
    cases h
    exact ⟨[], by simp⟩
  | cons m rest ih =>
    intro st st' out h
    rw [awdForEach] at h
    cases ha : add_with_dependencies fuel ctx rc st (.md m) none with
    | error e =>
      rw [ha] at h
      exact absurd h (by simp)
    | ok p =>
      rw [ha] at h
      obtain ⟨st1, o1⟩ := p
      dsimp only [] at h
      cases hrest : awdForEach fuel ctx rc st1 rest with
      | error e =>
        rw [hrest] at h
        exact absurd h (by simp)
      | ok q =>
        rw [hrest] at h
        obtain ⟨st2, o2⟩ := q
        dsimp only [] at h
        cases h
        obtain ⟨sufa, hsufa⟩ := (awd_ext_pack fuel).1 ctx rc st (.md m) none st1 o1 ha
        obtain ⟨sufr, hsufr⟩ := ih st1 st' o2 hrest
        exact ⟨sufa ++ sufr, by rw [hsufr, hsufa, List.append_assoc]⟩

/-- A successful `_add_using_url` only appends to the build list. -/
theorem add_using_url_ext (fuel : Nat) (ctx : Ctx) (st : St) (url : String)
    (ta : List String) (ni : Bool) (st' : St) (out : List String) (r : Nat)
    (h : add_using_url fuel ctx st url ta ni = .ok (st', out, r)) :
    ∃ suf, st'.build = st.build ++ suf := by
  rw [add_using_url.eq_def] at h
  cases hrem : ctx.remote url with
  | none =>
    rw [hrem] at h
    exact absurd h (by simp)
  | some remote =>
    rw [hrem] at h
    dsimp only [] at h
    cases hp : get_provides remote with
    | error e =>
      rw [hp] at h
      exact absurd h (by simp)
    | ok provides =>
      rw [hp] at h
      dsimp only [] at h
      split at h
      · split at h
        · exact absurd h (by simp)
        · split at h
          · split at h
            · cases h
              exact ⟨[], by simp⟩
            · split at h
              · exact absurd h (by simp)
              · rename_i st1 out1 heq
                cases h
                exact awdForEach_ext fuel ctx (some remote) _ st st' out1 heq
          · split at h
            · exact absurd h (by simp)
            · rename_i st1 out1 heq
              cases h
              exact awdForEach_ext fuel ctx (some remote) _ st st' out1 heq
      · split at h
        · exact absurd h (by simp)
        · split at h
          · exact absurd h (by simp)
          · rename_i modules heq2
            split at h
            · exact absurd h (by simp)
            · rename_i st1 out1 heq
              cases h
              exact awdForEach_ext fuel ctx (some remote) _ st st' out heq

/-- Marker preservation for the whole direct-add engine: a successful
`_add_modules` or `add_command` call never removes the user-requested marker
from an entry that already carried it (entries are only promoted in place, or
appended after the existing prefix). -/
theorem pm_pack (n : Nat) :
    (∀ (ctx : Ctx) (st : St) (ta : List String) (ab : AddedBy) (st' : St) (out : List String)
       (r : Nat),
       add_modules n ctx st ta ab = .ok (st', out, r) → preservesMark st.build st'.build)
    ∧ (∀ (ctx : Ctx) (st : St) (ta : List String) (ab : AddedBy) (ck : Option String) (ni : Bool)
       (st' : St) (out : List String) (r : Nat),
       add_command n ctx st ta ab ck ni = .ok (st', out, r) → preservesMark st.build st'.build) := by
  induction n with
  | zero =>
    constructor
    · intro ctx st ta ab st' out r h
      rw [add_modules_zero] at h
      exact absurd h (by simp)
    · intro ctx st ta ab ck ni st' out r h
      rw [add_command_zero] at h
      exact absurd h (by simp)
  | succ m ih =>
    constructor
    · intro ctx st ta ab st' out r h
      rw [add_modules_succ] at h
      cases htr : translateAll ctx ta with
      | error e =>
        rw [htr] at h
        exact absurd h (by simp)
      | ok p =>
        rw [htr] at h
        obtain ⟨ta2, out0⟩ := p
        dsimp only [] at h
        cases hab : mkAbMap ab ta2 with
        | error e =>
          rw [hab] at h
          exact absurd h (by simp)
        | ok abMap =>
          rw [hab] at h
          dsimp only [] at h
          split at h
          · exact absurd h (by simp)
          · split at h
            · exact absurd h (by simp)
            · split at h
              · exact absurd h (by simp)
              · rename_i deps depsBy hdd
                rw [afterDeps.eq_def] at h
                split at h
                · exact absurd h (by simp)
                · rename_i t st2 out2 r2 hR
                  split at h
                  · exact absurd h (by simp)
                  · rename_i q st3 out3 hm
                    cases h
                    have pm1 : preservesMark st.build
                        (st.build.map (promoteEntry abMap ta2)) :=
                      preservesMark_map _ _ (fun mm hmm => promoteEntry_keeps_marker _ _ _ hmm)
                    have pm2 : preservesMark (st.build.map (promoteEntry abMap ta2)) st2.build := by
                      by_cases hne : deps ≠ []
                      · rw [if_pos hne] at hR
                        exact ih.2 ctx ⟨st.build.map (promoteEntry abMap ta2)⟩ deps
                          (.list depsBy) none false st2 out2 r2 hR
                      · rw [if_neg hne] at hR
                        cases hR
                        exact preservesMark_refl _
                    have pm3 : preservesMark st2.build st'.build := by
                      obtain ⟨suf, hsuf⟩ := materialize_ext ctx abMap _ _ st2 st' out3 hm
                      rw [hsuf]
                      exact preservesMark_append _ _
                    exact preservesMark_trans _ _ _ (preservesMark_trans _ _ _ pm1 pm2) pm3
    · intro ctx st ta ab ck ni st' out r h
      cases ta with
      | nil =>
        replace h : (Except.error (.userError "Must specify at least one module to add") :
            Except Err (St × List String × Nat)) = .ok (st', out, r) := h
        exact absurd h (by simp)
      | cons first rest =>
        rw [add_command_succ] at h
        split at h
        · obtain ⟨suf, hsuf⟩ := add_using_url_ext m ctx st first rest ni st' out r h
          rw [hsuf]
          exact preservesMark_append _ _
        · exact ih.1 ctx st (first :: rest) ab st' out r h

/-- An explicit user re-add of a single catalog module `X` (no alias) that is
already in the build list reduces to: promote the matching entries' marker,
print the skip notice, append nothing. -/
theorem add_modules_readd (n : Nat) (ctx : Ctx) (st : St) (X : String) (d : Obj)
    (hlook : lookupA ctx.catalog X = some d) (halias : d.alias = none)
    (hmem : X ∈ st.build.map (fun m => m.name.getD "")) :
    add_modules (n + 1) ctx st [X] (.str "cfbs add")
      = .ok (⟨st.build.map (promoteEntry [(X, "cfbs add")] [X])⟩,
             ["Skipping already added module: " ++ X], 0) := by
  have h1 : translateAll ctx [X] = .ok ([X], []) := by
    simp [translateAll, translateOne, index_exists, hlook, halias]
  have h2 : mkAbMap (.str "cfbs add") [X] = .ok [(X, "cfbs add")] := rfl
  have h3 : lookupLast [(X, "cfbs add")] X = some "cfbs add" := by
    simp [lookupLast, lookupA]
  have h4 : [X].any (fun k => (lookupLast [(X, "cfbs add")] k).isNone) = false := by
    simp [h3]
  have h5 : [X].filter (fun m => (!strStartsWith m "./") && (lookupA ctx.catalog m).isNone)
      = [] := by
    simp [hlook]
  have hnames : (st.build.map (promoteEntry [(X, "cfbs add")] [X])).map (fun m => m.name.getD "")
      = st.build.map (fun m => m.name.getD "") := by
    rw [List.map_map]
    congr 1
    funext mm
    simp [Function.comp, promoteEntry_name]
  have h6 : filterPass [(X, "cfbs add")]
        ((st.build.map (promoteEntry [(X, "cfbs add")] [X])).map (fun m => m.name.getD ""))
        [X] [] [] none
      = ([], ["Skipping already added module: " ++ X], some true) := by
    rw [filterPass, hnames]
    rw [if_pos (by simpa using hmem)]
    simp [filterPass, h3]
  rw [add_modules_succ, h1]
  (try dsimp only [])
  rw [h2]
  (try dsimp only [])
  rw [h4]
  simp only [Bool.false_eq_true, if_false]
  rw [h5]
  (try simp only [ne_eq, not_true_eq_false, if_false, if_neg])
  rw [h6]
  (try dsimp only [discoverDeps])
  rw [afterDeps.eq_def]
  rw [if_neg (by simp)]
  (try dsimp only [])
  rw [materialize_nil]
  rfl

/-- Claim C4: attribution promotion is monotone.  (i) An explicit user re-add
of a catalog module `X` (no alias) already present in the build list sets
`added_by` of every entry named `X` to the user-requested marker
`"cfbs add"`.  (ii) Conversely, once an entry carries the marker, no
subsequent `add_command` run (any references, any attributions — including
re-adding the module as a dependency) ever changes it to anything else:
entries are only promoted in place or appended after the existing prefix. -/
theorem C4_promotion_monotone :
    (∀ (n : Nat) (ctx : Ctx) (st : St) (X : String) (d : Obj) (st' : St) (out : List String)
       (r : Nat),
       lookupA ctx.catalog X = some d → d.alias = none →
       X ∈ st.build.map (fun m => m.name.getD "") →
       add_modules (n + 1) ctx st [X] (.str "cfbs add") = .ok (st', out, r) →
       ∀ e ∈ st'.build, e.name = some X → e.added_by = some "cfbs add")
    ∧ (∀ (n : Nat) (ctx : Ctx) (st : St) (ta : List String) (ab : AddedBy) (ck : Option String)
       (ni : Bool) (st' : St) (out : List String) (r : Nat),
       add_command n ctx st ta ab ck ni = .ok (st', out, r) →
       preservesMark st.build st'.build) := by
  constructor
  · intro n ctx st X d st' out r hlook halias hmem h
    rw [add_modules_readd n ctx st X d hlook halias hmem] at h
    cases h
    intro e he hname
    obtain ⟨mm, hmm, hmme⟩ := List.mem_map.mp he
    have hmname : mm.name = some X := by
      rw [← promoteEntry_name [(X, "cfbs add")] [X] mm, hmme]
      exact hname
    rw [← hmme]
    exact promoteEntry_promotes [(X, "cfbs add")] [X] mm X hmname (by simp)
      (by simp [lookupLast, lookupA])
  · intro n ctx st ta ab ck ni st' out r h
    exact (pm_pack n).2 ctx st ta ab ck ni st' out r h

/-- Witness for `C4_promotion_monotone`: in `ctxX`, the entry for `x` first
added as a dependency of `dep` is promoted to the user marker by an explicit
re-add (with the skip notice printed), and a later add of an unrelated module
keeps markers at existing positions. -/
theorem C4_witness :
    lookupA ctxX.catalog "x" = some { description := some "x", steps := some ["sx"] }
    ∧ "x" ∈ (⟨[entryXdep]⟩ : St).build.map (fun m => m.name.getD "")
    ∧ add_modules 1 ctxX ⟨[entryXdep]⟩ ["x"] (.str "cfbs add")
        = .ok (⟨[entryXuser]⟩, ["Skipping already added module: x"], 0)
    ∧ entryXuser.added_by = some "cfbs add"
    ∧ preservesMark ([] : List Obj) [entryOne] := by
  refine ⟨rfl, by decide, rfl, ?_, ?_⟩
  · exact C4_promotion_monotone.1 0 ctxX ⟨[entryXdep]⟩ "x"
      { description := some "x", steps := some ["sx"] } ⟨[entryXuser]⟩
      ["Skipping already added module: x"] 0 rfl rfl (by decide) rfl
      entryXuser (by decide) rfl
  · exact C4_promotion_monotone.2 3 ctxOne ⟨[]⟩ ["one"] (.str "cfbs add") none false
      ⟨[entryOne]⟩ ["Added module: one"] 0 rfl
